import Mathlib

/-
Verification of the connection/session orchestration layer of the Copilot
SDK Python client (files copilot/client.py, copilot/session.py,
copilot/types.py), as a shallow embedding in Lean.

Modelling conventions:
  - Python dicts with string keys become association lists.
  - Python strings become Lean String, usually manipulated through the
    underlying List Char to keep every operation structurally recursive.
  - A Python callable that may raise becomes a Lean function returning
    Except String, the error carrying str(exc).
  - A handler that may return None becomes a function returning Option.
  - Handler identity (Python object identity used by sets and list
    membership) is modelled by a Nat identifier.
  - The out-of-scope JSON-RPC multiplexer (copilot/jsonrpc.py, not part of
    the provided sources) is modelled as oracles: outcomes of outbound
    requests are passed in as Except values.
-/

namespace CopilotSDK

/-! ## Basic wire values -/

/-- Result of a tool invocation — mirror of types.ToolResult, a TypedDict
with total=False, so every field is optional.  Fields not needed by any
claim (binaryResultsForLlm, sessionLog) are kept to mirror the shape but
carry opaque content. -/
structure ToolResult where
  textResultForLlm : Option String := none
  binaryResultsForLlm : Option (List String) := none
  resultType : Option String := none
  error : Option String := none
  sessionLog : Option String := none
  toolTelemetry : Option (List (String × String)) := none
deriving Repr, DecidableEq

/-- Mirror of types.ToolInvocation (a total TypedDict). -/
structure ToolInvocation where
  session_id : String
  tool_call_id : String
  tool_name : String
  arguments : Option String
deriving Repr, DecidableEq

/-- A tool handler: may raise (Except.error carries str(exc)) and may
return None (the Option). -/
def ToolHandler : Type := ToolInvocation → Except String (Option ToolResult)

/-- A permission decision as returned over the wire: a dict with a "kind"
key plus arbitrary further keys (modelled opaquely). -/
structure PermissionResult where
  kind : String
  extra : List (String × String) := []
deriving Repr, DecidableEq

/-- A permission handler receives the request payload (opaque) and the
context dict carrying the session id; it may raise. -/
def PermissionHandler : Type := String → String → Except String PermissionResult

/-- A user-input handler (shape only; no claim exercises its body). -/
def UserInputHandler : Type := String → String → Except String (String × Bool)

/-! ## Session state — mirror of session.CopilotSession fields -/

/-- The mutable state of a CopilotSession: the event-subscriber set (a
Python set of handler objects, modelled as a Finset of handler ids), the
tool-handler dict, the single optional permission / user-input handlers
and the optional hooks table. -/
structure CopilotSession where
  sessionId : String
  eventHandlers : Finset Nat := ∅
  toolHandlers : List (String × ToolHandler) := []
  permissionHandler : Option PermissionHandler := none
  userInputHandler : Option UserInputHandler := none
  hooks : Option (List (String × Nat)) := none
  workspacePath : Option String := none

/-- session.CopilotSession._get_tool_handler: dict .get by name. -/
def getToolHandler (s : CopilotSession) (name : String) : Option ToolHandler :=
  (s.toolHandlers.lookup name)

/-- The fixed denied permission result used by the fail-closed paths. -/
def deniedPermissionResult : PermissionResult :=
  { kind := "denied-no-approval-rule-and-could-not-request-from-user" }

/-- session.CopilotSession._handle_permission_request: take the handler
under its lock; absent handler or a raising handler yields the fixed
denied result, otherwise the handler result is returned unchanged. -/
def sessionHandlePermissionRequest (s : CopilotSession) (request : String) :
    PermissionResult :=
  match s.permissionHandler with
  | none => deniedPermissionResult
  | some handler =>
    match handler request s.sessionId with
    | .ok r => r
    | .error _ => deniedPermissionResult

/-! ## Python truthiness for payload validation -/

/-- Truthiness of an optional string payload field: present and nonempty. -/
def truthyS : Option String → Bool
  | none => false
  | some s => !(s = "")

/-- Truthiness of an optional bool option: present and True. -/
def truthyB : Option Bool → Bool
  | none => false
  | some b => b

/-! ## Client-side inbound request routing -/

/-- Parameters of an inbound permission.request (values of params.get). -/
structure PermissionRequestParams where
  sessionId : Option String
  permissionRequest : Option String
deriving Repr, DecidableEq

/-- The session registry: dict session id → session, as an assoc list with
unique keys. -/
def SessionRegistry : Type := List (String × CopilotSession)

/-- client.CopilotClient._handle_permission_request: validate the payload
(Python truthiness), look the session up under the registry lock, delegate
to the session, and turn any exception from the delegate into the fixed
denied result.  A raised ValueError is the Except.error case. -/
def clientHandlePermissionRequest (sessions : SessionRegistry)
    (params : PermissionRequestParams) : Except String PermissionResult :=
  if !(truthyS params.sessionId) || !(truthyS params.permissionRequest) then
    .error "invalid permission request payload"
  else
    match params.sessionId with
    | none => .error "invalid permission request payload"
    | some sid =>
      match sessions.lookup sid with
      | none => .error ("unknown session " ++ sid)
      | some session =>
        -- the inner call is already total (the session-level except
        -- converts handler failures to the denied result), so the outer
        -- try/except of the client never fires here
        .ok (sessionHandlePermissionRequest session
              ((params.permissionRequest).getD ""))

/-- The fixed model-facing text used when a tool handler raises. -/
def genericToolErrorText : String :=
  "Invoking this tool produced an error. Detailed information is not available."

/-- The fixed model-facing text used when a tool handler returns None. -/
def noResultToolErrorText : String := "Tool returned no result."

/-- client.CopilotClient._execute_tool_call: invoke the handler; on an
exception build the generic failure result carrying str(exc) only in the
diagnostic error field; on a None result build the no-result failure. -/
def executeToolCall (sessionId toolCallId toolName : String)
    (arguments : Option String) (handler : ToolHandler) : ToolResult :=
  let invocation : ToolInvocation :=
    { session_id := sessionId, tool_call_id := toolCallId,
      tool_name := toolName, arguments := arguments }
  match handler invocation with
  | .error exc =>
    { textResultForLlm := some genericToolErrorText,
      resultType := some "failure",
      error := some exc,
      toolTelemetry := some [] }
  | .ok none =>
    { textResultForLlm := some noResultToolErrorText,
      resultType := some "failure",
      error := some "tool returned no result",
      toolTelemetry := some [] }
  | .ok (some r) => r

/-- client.CopilotClient._build_unsupported_tool_result. -/
def buildUnsupportedToolResult (toolName : String) : ToolResult :=
  { textResultForLlm := some ("Tool \x27" ++ toolName ++ "\x27 is not supported."),
    resultType := some "failure",
    error := some ("tool \x27" ++ toolName ++ "\x27 not supported"),
    toolTelemetry := some [] }

/-- Parameters of an inbound tool.call (values of params.get). -/
structure ToolCallParams where
  sessionId : Option String
  toolCallId : Option String
  toolName : Option String
  arguments : Option String
deriving Repr, DecidableEq

/-- client.CopilotClient._handle_tool_call_request: validate the payload,
look the session up, resolve the named tool handler; an absent handler
yields the unsupported-tool failure result (returned, not raised);
otherwise the call is executed. -/
def handleToolCallRequest (sessions : SessionRegistry)
    (params : ToolCallParams) : Except String ToolResult :=
  if !(truthyS params.sessionId) || !(truthyS params.toolCallId) ||
      !(truthyS params.toolName) then
    .error "invalid tool call payload"
  else
    match params.sessionId, params.toolCallId, params.toolName with
    | some sid, some tcid, some tname =>
      match sessions.lookup sid with
      | none => .error ("unknown session " ++ sid)
      | some session =>
        match getToolHandler session tname with
        | none => .ok (buildUnsupportedToolResult tname)
        | some handler =>
          .ok (executeToolCall sid tcid tname params.arguments handler)
    | _, _, _ => .error "invalid tool call payload"

/-! ## Substring containment (for text-content claims) -/

/-- Does pattern occur as a prefix of txt. -/
def startsWithChars : List Char → List Char → Bool
  | [], _ => true
  | _ :: _, [] => false
  | p :: ps, c :: cs => p = c && startsWithChars ps cs

/-- Does pattern occur as a contiguous substring of txt. -/
def containsSub (pat : List Char) : List Char → Bool
  | [] => pat.isEmpty
  | c :: cs => startsWithChars pat (c :: cs) || containsSub pat cs

/-- Substring containment on String. -/
def strContains (txt pat : String) : Bool := containsSub pat.data txt.data

/-! ## Endpoint string parsing — client.CopilotClient._parse_cli_url -/

/-- The whitespace characters stripped by Python int() around a numeric
literal (space, tab, newline, carriage return, vertical tab, form feed). -/
def isPySpace (c : Char) : Bool :=
  c = ' ' || c = '\t' || c = '\n' || c = '\r' ||
  c = '\x0b' || c = '\x0c'

/-- Drop leading Python whitespace. -/
def dropLeadingWs (cs : List Char) : List Char := cs.dropWhile isPySpace

/-- Strip Python whitespace from both ends. -/
def stripWs (cs : List Char) : List Char :=
  ((dropLeadingWs cs).reverse.dropWhile isPySpace).reverse

/-- Numeric value of an ASCII digit character. -/
def digitVal (c : Char) : Nat := c.toNat - 48

/-- Continuation of a Python int literal after its first digit: digits,
with single underscores allowed only between digits. -/
def goDigits (acc : Nat) : List Char → Option Nat
  | [] => some acc
  | c :: rest =>
    if c.isDigit then goDigits (acc * 10 + digitVal c) rest
    else if c = '_' then
      match rest with
      | [] => none
      | c2 :: rest2 =>
        if c2.isDigit then goDigits (acc * 10 + digitVal c2) rest2 else none
    else none

/-- Body of a Python int literal: a leading digit followed by goDigits. -/
def parseDigitsUnd : List Char → Option Nat
  | [] => none
  | c :: rest => if c.isDigit then goDigits (digitVal c) rest else none

/-- Python int(str): optional surrounding whitespace, optional sign, then
digits possibly separated by single underscores.  Returns none where
Python raises ValueError.  (Non-ASCII digit forms are out of scope.) -/
def pyParseInt (s : String) : Option Int :=
  match stripWs s.data with
  | [] => none
  | c :: rest =>
    if c = '-' then (parseDigitsUnd rest).map (fun n => -(n : Int))
    else if c = '+' then (parseDigitsUnd rest).map (fun n => (n : Int))
    else (parseDigitsUnd (c :: rest)).map (fun n => (n : Int))

/-- Python str.isdigit for ASCII strings: nonempty and all digits. -/
def isdigitChars (cs : List Char) : Bool := !cs.isEmpty && cs.all Char.isDigit

/-- The regex sub removing an anchored http:// or https:// scheme. -/
def stripScheme (cs : List Char) : List Char :=
  if startsWithChars "http://".data cs then cs.drop 7
  else if startsWithChars "https://".data cs then cs.drop 8
  else cs

/-- Python str.split(sep) for a single-character separator: every
occurrence splits, empty pieces are kept. -/
def splitOnChar (sep : Char) : List Char → List (List Char)
  | [] => [[]]
  | c :: rest =>
    if c = sep then [] :: splitOnChar sep rest
    else
      match splitOnChar sep rest with
      | [] => [[c]]
      | piece :: pieces => (c :: piece) :: pieces

/-- client.CopilotClient._parse_cli_url: strip an anchored http(s) scheme;
a pure digit string is a bare port (localhost); otherwise split on the
colon, demanding exactly two parts, an empty host defaulting to
localhost; the port must parse as a Python int in [1, 65535].  Raised
ValueErrors are the Except.error case. -/
def parseCliUrl (url : String) : Except String (String × Int) :=
  let cleanUrl := stripScheme url.data
  if isdigitChars cleanUrl then
    match pyParseInt (String.mk cleanUrl) with
    | none => .error ("Invalid port in cli_url: " ++ url)
    | some port =>
      if port ≤ 0 || port > 65535 then
        .error ("Invalid port in cli_url: " ++ url)
      else .ok ("localhost", port)
  else
    match splitOnChar ':' cleanUrl with
    | [hostPart, portPart] =>
      let host := if hostPart.isEmpty then "localhost" else String.mk hostPart
      match pyParseInt (String.mk portPart) with
      | none => .error ("Invalid port in cli_url: " ++ url)
      | some port =>
        if port ≤ 0 || port > 65535 then
          .error ("Invalid port in cli_url: " ++ url)
        else .ok (host, port)
    | _ => .error ("Invalid cli_url format: " ++ url)

/-- Decimal value of a digit list, most significant first. -/
def digitsVal (cs : List Char) : Nat :=
  cs.foldl (fun acc c => acc * 10 + digitVal c) 0

/-! ## Client construction — client.CopilotClient.__init__ -/

/-- Mirror of types.CopilotClientOptions (TypedDict, total=False): every
field may be absent.  Fields irrelevant to construction (env, log level,
auto flags, cwd, port) are kept for shape. -/
structure CopilotClientOptions where
  cli_path : Option String := none
  cwd : Option String := none
  port : Option Int := none
  use_stdio : Option Bool := none
  cli_url : Option String := none
  log_level : Option String := none
  auto_start : Option Bool := none
  auto_restart : Option Bool := none
  github_token : Option String := none
  use_logged_in_user : Option Bool := none
deriving Repr, DecidableEq

/-- The Python error class raised: __init__ raises ValueError for the
mutually exclusive combinations and RuntimeError when no CLI binary can
be resolved. -/
inductive InitError where
  | valueError (msg : String)
  | runtimeError (msg : String)
deriving Repr, DecidableEq

/-- The client fields established by a successful __init__ (before any
start): no process, no transport, state disconnected. -/
structure InitializedClient where
  actualHost : String
  actualPort : Option Int
  isExternalServer : Bool
  cliPath : String
  useStdio : Bool
  useLoggedInUser : Bool
  githubToken : Option String
  hasProcess : Bool
  hasClient : Bool
  state : String
deriving Repr, DecidableEq

/-- client.CopilotClient.__init__, with the bundled-binary discovery
(a filesystem probe) passed in as bundledPath.  Validation happens first;
only then is cli_url parsed and the CLI path resolved.  The constructor
never spawns a process nor touches a transport: the resulting client has
hasProcess = false, hasClient = false, state = disconnected. -/
def clientInit (bundledPath : Option String) (opts : CopilotClientOptions) :
    Except InitError InitializedClient :=
  if truthyS opts.cli_url && (truthyB opts.use_stdio || truthyS opts.cli_path) then
    .error (.valueError "cli_url is mutually exclusive with use_stdio and cli_path")
  else if truthyS opts.cli_url &&
      (truthyS opts.github_token || !(opts.use_logged_in_user = none)) then
    .error (.valueError
      ("github_token and use_logged_in_user cannot be used with cli_url " ++
        "(external server manages its own auth)"))
  else
    let parsed : Except InitError (String × Option Int × Bool) :=
      if truthyS opts.cli_url then
        match parseCliUrl ((opts.cli_url).getD "") with
        | .error e => .error (.valueError e)
        | .ok (host, port) => .ok (host, some port, true)
      else .ok ("localhost", none, false)
    match parsed with
    | .error e => .error e
    | .ok (host, port, isExternal) =>
      let resolvedPath : Except InitError String :=
        if truthyS opts.cli_url then .ok ""
        else if truthyS opts.cli_path then .ok ((opts.cli_path).getD "")
        else
          match bundledPath with
          | some p => .ok p
          | none =>
            .error (.runtimeError
              ("Copilot CLI not found. The bundled CLI binary is not available. " ++
                "Ensure you installed a platform-specific wheel, or provide cli_path."))
      match resolvedPath with
      | .error e => .error e
      | .ok cliPath =>
        let useLoggedInUser :=
          match opts.use_logged_in_user with
          | some b => b
          | none => if truthyS opts.github_token then false else true
        .ok {
          actualHost := host,
          actualPort := port,
          isExternalServer := isExternal,
          cliPath := cliPath,
          useStdio :=
            if truthyS opts.cli_url then false
            else (opts.use_stdio).getD true,
          useLoggedInUser := useLoggedInUser,
          githubToken :=
            if truthyS opts.github_token then opts.github_token else none,
          hasProcess := false,
          hasClient := false,
          state := "disconnected" }

/-! ## Session destroy and registry removal -/

/-- The session-local effect of session.CopilotSession.destroy after the
remote session.destroy request succeeded: the event-handler set, the
tool-handler dict and the permission handler are cleared (the user-input
handler and hooks are not touched by destroy). -/
def destroyedSession (s : CopilotSession) : CopilotSession :=
  { s with eventHandlers := ∅, toolHandlers := [], permissionHandler := none }

/-- session.CopilotSession.destroy: issue the remote session.destroy
request (outcome passed as an oracle); if it raises nothing local is
cleared, otherwise the handler tables are cleared. -/
def sessionDestroy (remote : Except String Unit) (s : CopilotSession) :
    Except String CopilotSession :=
  match remote with
  | .error e => .error e
  | .ok _ => .ok (destroyedSession s)

/-- The effect of session.destroy() on the client registry: destroy is a
method of the session object and mutates only that object in place; the
registry keys are untouched, so the id still maps to the (now cleared)
session object. -/
def registryAfterDestroy (reg : SessionRegistry) (sid : String) :
    SessionRegistry :=
  reg.map (fun p => if p.1 = sid then (p.1, destroyedSession p.2) else p)

/-- The wire response of session.delete (values of response.get). -/
structure DeleteSessionResponse where
  success : Option Bool
  error : Option String
deriving Repr, DecidableEq

/-- client.CopilotClient.delete_session: issue the request; a response
without success = True raises; otherwise the id is removed from the local
registry when present. -/
def deleteSession (resp : DeleteSessionResponse) (reg : SessionRegistry)
    (sid : String) : Except String SessionRegistry :=
  if !((resp.success).getD false) then
    .error ("Failed to delete session " ++ sid ++ ": " ++
      ((resp.error).getD "Unknown error"))
  else
    .ok (reg.filter (fun p => !(p.1 = sid)))

/-! ## Shutdown — client.CopilotClient.stop -/

/-- Mirror of types.StopError. -/
structure StopError where
  message : String
deriving Repr, DecidableEq

/-- The client state that stop and start manipulate.  The JSON-RPC
multiplexer held in the Python _client field is represented only by its
presence; per spec section 5 its own stop is a benign release (double
release is a no-op), so closing it is pure state update. -/
structure ClientState where
  sessions : SessionRegistry
  hasClient : Bool
  modelsCache : Option (List Nat)
  hasProcess : Bool
  isExternalServer : Bool
  state : String
  actualPort : Option Int

/-- client.CopilotClient.stop: atomically take and clear the registry;
destroy each taken session, collecting failures (the destroy outcome per
session id is the oracle); close the transport; clear the models cache;
terminate the spawned process only when owned; end disconnected.
Modelled from the spec: jsonrpc.JsonRpcClient.stop (a source file not
provided) releases the transport without raising, per spec section 5
(double-release must be a no-op, not an error). -/
def clientStop (destroyOutcome : String → Except String Unit)
    (st : ClientState) : List StopError × ClientState :=
  let sessionsToDestroy := st.sessions
  let errors : List StopError :=
    sessionsToDestroy.filterMap (fun p =>
      match destroyOutcome p.1 with
      | .ok _ => none
      | .error e =>
        some { message := "Failed to destroy session " ++ p.1 ++ ": " ++ e })
  (errors,
    { sessions := [],
      hasClient := false,
      modelsCache := none,
      hasProcess :=
        if st.hasProcess && !st.isExternalServer then false else st.hasProcess,
      isExternalServer := st.isExternalServer,
      state := "disconnected",
      actualPort := if !st.isExternalServer then none else st.actualPort })

/-! ## Startup handshake — client.CopilotClient.start -/

/-- The raw wire dict answering ping (values of obj.get). -/
structure PingWire where
  message : Option String
  timestamp : Option Int
  protocolVersion : Option Int
deriving Repr, DecidableEq

/-- Mirror of types.PingResponse (all fields required after parsing). -/
structure PingResponse where
  message : String
  timestamp : Int
  protocolVersion : Int
deriving Repr, DecidableEq

/-- types.PingResponse.from_dict: any missing field raises ValueError. -/
def pingResponseFromDict (w : PingWire) : Except String PingResponse :=
  match w.message, w.timestamp, w.protocolVersion with
  | some m, some t, some v => .ok { message := m, timestamp := t, protocolVersion := v }
  | _, _, _ =>
    .error "Missing required fields in PingResponse"

/-- client.CopilotClient._verify_protocol_version: parse the ping response
(raising when the version is absent) and compare the reported version to
the expected SDK protocol version.  After from_dict the version is an int,
so the explicit is-None branch of the Python code cannot fire; omission is
caught by from_dict. -/
def verifyProtocolVersion (expectedVersion : Int) (w : PingWire) :
    Except String Unit :=
  match pingResponseFromDict w with
  | .error e => .error e
  | .ok pr =>
    if pr.protocolVersion = expectedVersion then .ok ()
    else
      .error ("SDK protocol version mismatch: SDK expects version " ++
        toString expectedVersion ++ ", but server reports version " ++
        toString pr.protocolVersion ++
        ". Please update your SDK or server to ensure compatibility.")

/-- client.CopilotClient.start: a no-op when already connected; otherwise
enter connecting, spawn the CLI server unless attached to an external
endpoint, connect, and verify the protocol version; any failure in that
try block leaves the state at error, success at connected.  The spawn and
connect outcomes are oracles for the out-of-scope process and transport
machinery. -/
def clientStart (spawnOutcome connectOutcome : Except String Unit)
    (pingAnswer : PingWire) (expectedVersion : Int) (st : ClientState) :
    Except String Unit × ClientState :=
  if st.state = "connected" then (.ok (), st)
  else
    let spawned : Except String Unit :=
      if st.isExternalServer then .ok () else spawnOutcome
    let attempt : Except String Unit :=
      match spawned with
      | .error e => .error e
      | .ok _ =>
        match connectOutcome with
        | .error e => .error e
        | .ok _ => verifyProtocolVersion expectedVersion pingAnswer
    -- _connect_to_server assigns the transport, so _client is set exactly
    -- when spawning and connecting both got through
    let connected : Bool := spawned.isOk && connectOutcome.isOk
    match attempt with
    | .ok _ => (.ok (), { st with state := "connected", hasClient := true })
    | .error e =>
      (.error e, { st with state := "error",
                           hasClient := st.hasClient || connected })

/-! ## Models cache — client.CopilotClient.list_models

Python list objects are aliased references, so the defensive-copy
behaviour (list(self._models_cache)) is modelled with a small heap: a
store mapping references to list contents and a fresh-reference counter.
ModelInfo values are opaque ids. -/

/-- Heap of list objects plus the _models_cache reference. -/
structure ModelsState where
  nextRef : Nat
  store : List (Nat × List Nat)
  cacheRef : Option Nat
  hasClient : Bool

/-- Allocate a fresh list object holding the given contents. -/
def allocList (st : ModelsState) (contents : List Nat) : Nat × ModelsState :=
  (st.nextRef,
    { st with store := st.store ++ [(st.nextRef, contents)],
              nextRef := st.nextRef + 1 })

/-- Contents of a list object. -/
def heapGet (st : ModelsState) (r : Nat) : Option (List Nat) :=
  st.store.lookup r

/-- In-place mutation of a list object (e.g. the caller appending to the
list it was returned). -/
def heapSet (st : ModelsState) (r : Nat) (contents : List Nat) : ModelsState :=
  { st with store := st.store.map (fun p => if p.1 = r then (r, contents) else p) }

/-- client.CopilotClient.list_models.  The whole body runs under the
asyncio models-cache lock, so concurrent callers are serialized and a
sequence of calls is the faithful semantics.  serverAnswer is the outcome
of the outbound models.list request (the multiplexer oracle); the third
component counts outbound requests issued by this call.  A cache hit
returns a fresh copy; a miss issues the single request, installs the
fresh list as the cache and returns another fresh copy. -/
def listModels (serverAnswer : Except String (List Nat)) (st : ModelsState) :
    Except String (Nat × ModelsState × Nat) :=
  if !st.hasClient then .error "Client not connected"
  else
    match st.cacheRef with
    | some r =>
      let (copyRef, st1) := allocList st ((heapGet st r).getD [])
      .ok (copyRef, st1, 0)
    | none =>
      match serverAnswer with
      | .error e => .error e
      | .ok models =>
        let (modelsRef, st1) := allocList st models
        let st2 := { st1 with cacheRef := some modelsRef }
        let (copyRef, st3) := allocList st2 ((heapGet st2 modelsRef).getD [])
        .ok (copyRef, st3, 1)

/-! ## Event subscription — Session.on and Client.on -/

/-- session.CopilotSession.on: add the handler to the subscriber set and
return an unsubscribe closure that discards exactly that handler. -/
def sessionOn (h : Nat) (handlers : Finset Nat) :
    Finset Nat × (Finset Nat → Finset Nat) :=
  (insert h handlers, fun hs => hs.erase h)

/-- The wildcard branch of client.CopilotClient.on: append the handler to
the wildcard list; the unsubscribe closure removes the first occurrence
of the handler if the handler is still in the list. -/
def clientOnWildcard (h : Nat) (handlers : List Nat) :
    List Nat × (List Nat → List Nat) :=
  (handlers ++ [h],
    fun hs => if h ∈ hs then hs.erase h else hs)

/-- The typed branch of client.CopilotClient.on for one event type: the
same append / guarded first-occurrence removal on the per-type list. -/
def clientOnTyped (h : Nat) (handlers : List Nat) :
    List Nat × (List Nat → List Nat) :=
  (handlers ++ [h],
    fun hs => if h ∈ hs then hs.erase h else hs)

/-! ## Concrete sample values used by closed instance theorems -/

/-- A session with no handlers registered. -/
def sampleSession : CopilotSession := { sessionId := "s1" }

/-- A one-session registry. -/
def sampleRegistry : SessionRegistry := [("s1", sampleSession)]

/-- Options with cli_url set together with use_stdio set (to False). -/
def optsUrlWithStdioFalse : CopilotClientOptions :=
  { cli_url := some "localhost:3000", use_stdio := some false }

/-- The store-key bound used for reference freshness of the models heap. -/
def wfStore (st : ModelsState) : Bool :=
  st.store.all (fun p => p.1 < st.nextRef)

/-- An empty cold models heap with a connected client. -/
def coldModelsState : ModelsState :=
  { nextRef := 0, store := [], cacheRef := none, hasClient := true }

/-- A freshly constructed, never started client state. -/
def sampleDisconnectedState : ClientState :=
  { sessions := [], hasClient := false, modelsCache := none,
    hasProcess := false, isExternalServer := false,
    state := "disconnected", actualPort := none }

/-! # Theorems -/

/-! ## Substring helper lemmas -/

theorem startsWithChars_append_self (p r : List Char) :
    startsWithChars p (p ++ r) = true := by
  induction p with
  | nil => rfl
  | cons c cs ih => simp [startsWithChars, ih]

theorem containsSub_append_of_startsWith {pat t : List Char}
    (h : startsWithChars pat t = true) (a : List Char) :
    containsSub pat (a ++ t) = true := by
  induction a with
  | nil =>
    cases t with
    | nil =>
      cases pat with
      | nil => rfl
      | cons p ps => simp [startsWithChars] at h
    | cons c cs => simp [containsSub, h]
  | cons x xs ih => simp [containsSub, ih]

/-! ## C1 — permission requests fail closed -/

/-- Claim C1: for an inbound permission.request naming a registered
session, if the session has no permission handler or the handler raises,
the routed result is exactly the fixed denied variant (kind
denied-no-approval-rule-and-could-not-request-from-user); in particular no
such code path can produce an allow result. -/
theorem permission_request_fail_closed
    (sessions : SessionRegistry) (params : PermissionRequestParams)
    (sid : String) (session : CopilotSession)
    (hsid : params.sessionId = some sid)
    (ht1 : truthyS params.sessionId = true)
    (ht2 : truthyS params.permissionRequest = true)
    (hlook : sessions.lookup sid = some session)
    (hfail : session.permissionHandler = none ∨
      ∃ f e, session.permissionHandler = some f ∧
        f ((params.permissionRequest).getD "") session.sessionId =
          .error e) :
    clientHandlePermissionRequest sessions params =
      .ok deniedPermissionResult := by
  unfold clientHandlePermissionRequest
  rw [ht1, ht2]
  simp only [Bool.not_true, Bool.or_self, Bool.false_eq_true, if_false]
  rw [hsid]
  simp only [hlook]
  unfold sessionHandlePermissionRequest
  rcases hfail with hnone | ⟨f, e, hf, herr⟩
  · rw [hnone]
  · simp [hf, herr]

theorem permission_request_fail_closed_witness :
    clientHandlePermissionRequest sampleRegistry
      { sessionId := some "s1", permissionRequest := some "req" } =
      .ok deniedPermissionResult :=
  permission_request_fail_closed sampleRegistry
    { sessionId := some "s1", permissionRequest := some "req" }
    "s1" sampleSession rfl rfl rfl rfl (Or.inl rfl)

/-! ## C2 — tool handler failures are normalized -/

/-- Claim C2, counterexample to the literal containment reading: a tool
handler that raises an exception whose message is the string "error"
produces a failure result whose caller-visible text does contain that
message as a substring (the fixed text itself contains the word error),
while the error field carries the message. -/
theorem tool_error_text_contains_message_instance :
    strContains (((executeToolCall "s1" "c1" "mytool" none
        (fun _ => Except.error "error")).textResultForLlm).getD "")
        "error" = true ∧
    (executeToolCall "s1" "c1" "mytool" none
        (fun _ => Except.error "error")).error = some "error" :=
  ⟨rfl, rfl⟩

/-- Claim C2 (amended): for every handler that raises, the result is the
failure result whose caller-visible text is the fixed constant
genericToolErrorText — independent of the exception, so no information
from the exception flows into it — with str(exc) stored only in the
diagnostic error field; and for every handler returning None, the result
is the fixed no-result failure. -/
theorem tool_failure_text_is_fixed :
    (∀ (sid tcid tname : String) (args : Option String)
        (handler : ToolHandler) (msg : String),
      handler { session_id := sid, tool_call_id := tcid,
                tool_name := tname, arguments := args } = .error msg →
      executeToolCall sid tcid tname args handler =
        { textResultForLlm := some genericToolErrorText,
          resultType := some "failure",
          error := some msg,
          toolTelemetry := some [] }) ∧
    (∀ (sid tcid tname : String) (args : Option String)
        (handler : ToolHandler),
      handler { session_id := sid, tool_call_id := tcid,
                tool_name := tname, arguments := args } = .ok none →
      executeToolCall sid tcid tname args handler =
        { textResultForLlm := some noResultToolErrorText,
          resultType := some "failure",
          error := some "tool returned no result",
          toolTelemetry := some [] }) := by
  constructor
  · intro sid tcid tname args handler msg h
    simp [executeToolCall, h]
  · intro sid tcid tname args handler h
    simp [executeToolCall, h]

theorem tool_failure_text_is_fixed_witness :
    executeToolCall "s" "c" "t" none (fun _ => Except.error "boom") =
      { textResultForLlm := some genericToolErrorText,
        resultType := some "failure",
        error := some "boom",
        toolTelemetry := some [] } ∧
    executeToolCall "s" "c" "t" none (fun _ => Except.ok none) =
      { textResultForLlm := some noResultToolErrorText,
        resultType := some "failure",
        error := some "tool returned no result",
        toolTelemetry := some [] } :=
  ⟨tool_failure_text_is_fixed.1 "s" "c" "t" none _ "boom" rfl,
   tool_failure_text_is_fixed.2 "s" "c" "t" none _ rfl⟩

/-! ## C8 — unsupported tool yields a named failure result -/

/-- Claim C8: an inbound tool.call naming a tool with no registered
handler in the target session yields a returned (not raised) failure
result equal to buildUnsupportedToolResult of the requested name — a
value depending on the tool name alone, hence free of handler internals
— whose caller-visible text contains the tool name. -/
theorem unsupported_tool_failure
    (sessions : SessionRegistry) (params : ToolCallParams)
    (sid tcid tname : String) (session : CopilotSession)
    (h1 : params.sessionId = some sid)
    (h2 : params.toolCallId = some tcid)
    (h3 : params.toolName = some tname)
    (ht1 : truthyS params.sessionId = true)
    (ht2 : truthyS params.toolCallId = true)
    (ht3 : truthyS params.toolName = true)
    (hlook : sessions.lookup sid = some session)
    (hnh : getToolHandler session tname = none) :
    handleToolCallRequest sessions params =
      .ok (buildUnsupportedToolResult tname) ∧
    (buildUnsupportedToolResult tname).resultType = some "failure" ∧
    strContains
      (((buildUnsupportedToolResult tname).textResultForLlm).getD "")
      tname = true := by
  refine ⟨?_, rfl, ?_⟩
  · unfold handleToolCallRequest
    rw [ht1, ht2, ht3]
    simp only [Bool.not_true, Bool.or_self, Bool.false_eq_true, if_false]
    rw [h1, h2, h3]
    simp only [hlook, hnh]
  · show containsSub tname.data
      ("Tool \x27" ++ tname ++ "\x27 is not supported.").data = true
    rw [String.data_append, String.data_append]
    rw [List.append_assoc]
    exact containsSub_append_of_startsWith
      (startsWithChars_append_self tname.data _) _

/-! ## C6 — mutually exclusive constructor options -/

/-- Claim C6, counterexample: options that set cli_url together with
use_stdio — set to False, which Python truthiness treats as unset — are
accepted by the constructor instead of raising ValueError. -/
theorem init_accepts_url_with_stdio_false :
    (clientInit none optsUrlWithStdioFalse).isOk = true := rfl

/-- Claim C6 (amended): the constructor raises ValueError whenever a
truthy cli_url is combined with a truthy use_stdio or a truthy cli_path,
and whenever a truthy cli_url is combined with a truthy github_token or
any explicitly supplied use_logged_in_user; validation is part of the
pure construction, and every successfully constructed client starts with
no process, no transport and state disconnected, so the error is raised
before any process spawn or transport activity. -/
theorem init_rejects_conflicting_options :
    (∀ (bundled : Option String) (opts : CopilotClientOptions),
      truthyS opts.cli_url = true →
      truthyB opts.use_stdio = true ∨ truthyS opts.cli_path = true →
      ∃ m, clientInit bundled opts = .error (.valueError m)) ∧
    (∀ (bundled : Option String) (opts : CopilotClientOptions),
      truthyS opts.cli_url = true →
      truthyS opts.github_token = true ∨ ¬(opts.use_logged_in_user = none) →
      ∃ m, clientInit bundled opts = .error (.valueError m)) ∧
    (∀ (bundled : Option String) (opts : CopilotClientOptions)
        (c : InitializedClient),
      clientInit bundled opts = .ok c →
      c.hasProcess = false ∧ c.hasClient = false ∧
        c.state = "disconnected") := by
  refine ⟨?_, ?_, ?_⟩
  · intro bundled opts h1 h2
    unfold clientInit
    have hc : (truthyS opts.cli_url &&
        (truthyB opts.use_stdio || truthyS opts.cli_path)) = true := by
      rcases h2 with h2 | h2 <;> simp [h1, h2]
    rw [if_pos hc]
    exact ⟨_, rfl⟩
  · intro bundled opts h1 h2
    unfold clientInit
    by_cases hc : (truthyS opts.cli_url &&
        (truthyB opts.use_stdio || truthyS opts.cli_path)) = true
    · rw [if_pos hc]
      exact ⟨_, rfl⟩
    · rw [if_neg hc]
      have hc2 : (truthyS opts.cli_url &&
          (truthyS opts.github_token ||
            !(opts.use_logged_in_user = none))) = true := by
        rcases h2 with h2 | h2
        · simp [h1, h2]
        · simp [h1, h2]
      rw [if_pos hc2]
      exact ⟨_, rfl⟩
  · intro bundled opts c h
    unfold clientInit at h
    by_cases h1 : (truthyS opts.cli_url &&
        (truthyB opts.use_stdio || truthyS opts.cli_path)) = true
    · rw [if_pos h1] at h
      cases h
    rw [if_neg h1] at h
    by_cases h2 : (truthyS opts.cli_url &&
        (truthyS opts.github_token ||
          !(opts.use_logged_in_user = none))) = true
    · rw [if_pos h2] at h
      cases h
    rw [if_neg h2] at h
    by_cases h3 : truthyS opts.cli_url = true
    · cases hp : parseCliUrl ((opts.cli_url).getD "") with
      | error e => simp [h3, hp] at h
      | ok pr =>
        obtain ⟨host, port⟩ := pr
        simp [h3, hp] at h
        rw [← h]
        exact ⟨rfl, rfl, rfl⟩
    · by_cases h4 : truthyS opts.cli_path = true
      · simp [h3, h4] at h
        rw [← h]
        exact ⟨rfl, rfl, rfl⟩
      · cases bundled with
        | none => simp [h3, h4] at h
        | some p =>
          simp [h3, h4] at h
          rw [← h]
          exact ⟨rfl, rfl, rfl⟩

theorem init_rejects_conflicting_options_witness :
    (∃ m, clientInit none
      { cli_url := some "localhost:3000", use_stdio := some true } =
        .error (.valueError m)) ∧
    (∃ m, clientInit none
      { cli_url := some "localhost:3000",
        use_logged_in_user := some false } = .error (.valueError m)) ∧
    (∃ c, clientInit none { cli_path := some "/usr/local/bin/copilot" } =
        .ok c ∧
      (c.hasProcess = false ∧ c.hasClient = false ∧
        c.state = "disconnected")) := by
  refine ⟨?_, ?_, ?_⟩
  · exact init_rejects_conflicting_options.1 none
      { cli_url := some "localhost:3000", use_stdio := some true }
      rfl (Or.inl rfl)
  · exact init_rejects_conflicting_options.2.1 none
      { cli_url := some "localhost:3000", use_logged_in_user := some false }
      rfl (Or.inr (by simp))
  · refine ⟨_, rfl, init_rejects_conflicting_options.2.2 none
      { cli_path := some "/usr/local/bin/copilot" } _ rfl⟩

/-! ## C10 — unsubscribe functions -/

/-- Claim C10, counterexample: register the same handler object twice via
the client wildcard subscription; the unsubscribe function of the first
registration is not idempotent — its second call removes the occurrence
belonging to the second registration, so the doubly applied unsubscribe
differs from the singly applied one. -/
theorem unsubscribe_removes_duplicate_registration :
    ((clientOnWildcard 0 []).2) (((clientOnWildcard 0 []).2)
        ((clientOnWildcard 0 ((clientOnWildcard 0 []).1)).1)) ≠
      ((clientOnWildcard 0 []).2)
        ((clientOnWildcard 0 ((clientOnWildcard 0 []).1)).1) := by decide

/-- Claim C10 (amended): the session-level unsubscribe (backed by a
Python set, which collapses duplicate registrations) is unconditionally
idempotent and never affects a different handler; the client-level
unsubscribe (backed by a list) never raises, is a no-op once the handler
is no longer present, never changes the multiplicity of a different
handler, and is idempotent provided the same handler object is registered
at most once — with duplicate registrations of one handler object a
repeated call removes a further occurrence, as the counterexample
shows. -/
theorem unsubscribe_idempotent_and_isolated :
    (∀ (h : Nat) (S X : Finset Nat),
      (sessionOn h S).2 ((sessionOn h S).2 X) = (sessionOn h S).2 X) ∧
    (∀ (h : Nat) (S X : Finset Nat) (h2 : Nat), h2 ≠ h →
      (h2 ∈ (sessionOn h S).2 X ↔ h2 ∈ X)) ∧
    (∀ (h : Nat) (l X : List Nat), X.count h ≤ 1 →
      (clientOnWildcard h l).2 ((clientOnWildcard h l).2 X) =
        (clientOnWildcard h l).2 X) ∧
    (∀ (h : Nat) (l X : List Nat) (h2 : Nat), h2 ≠ h →
      ((clientOnWildcard h l).2 X).count h2 = X.count h2) ∧
    (∀ (h : Nat) (l X : List Nat), h ∉ X →
      (clientOnWildcard h l).2 X = X) ∧
    (∀ (h : Nat) (l X : List Nat), X.count h ≤ 1 →
      (clientOnTyped h l).2 ((clientOnTyped h l).2 X) =
        (clientOnTyped h l).2 X) ∧
    (∀ (h : Nat) (l X : List Nat) (h2 : Nat), h2 ≠ h →
      ((clientOnTyped h l).2 X).count h2 = X.count h2) := by
  have listIdem : ∀ (h : Nat) (X : List Nat), X.count h ≤ 1 →
      (if h ∈ (if h ∈ X then X.erase h else X) then
        (if h ∈ X then X.erase h else X).erase h
      else (if h ∈ X then X.erase h else X)) =
        (if h ∈ X then X.erase h else X) := by
    intro h X hc
    by_cases hm : h ∈ X
    · have h1 : X.count h = 1 := by
        have := List.count_pos_iff.mpr hm
        omega
      have h0 : (X.erase h).count h = 0 := by
        rw [List.count_erase_self, h1]
      have hnm : h ∉ X.erase h := List.count_eq_zero.mp h0
      simp [hm, hnm]
    · simp [hm]
  have listIso : ∀ (h : Nat) (X : List Nat) (h2 : Nat), h2 ≠ h →
      (if h ∈ X then X.erase h else X).count h2 = X.count h2 := by
    intro h X h2 hne
    by_cases hm : h ∈ X
    · simp [hm, List.count_erase_of_ne hne]
    · simp [hm]
  refine ⟨?_, ?_, ?_, ?_, ?_, ?_, ?_⟩
  · intro h S X
    exact Finset.erase_idem
  · intro h S X h2 hne
    simp [sessionOn, Finset.mem_erase, hne]
  · intro h l X hc
    exact listIdem h X hc
  · intro h l X h2 hne
    exact listIso h X h2 hne
  · intro h l X hnm
    simp [clientOnWildcard, hnm]
  · intro h l X hc
    exact listIdem h X hc
  · intro h l X h2 hne
    exact listIso h X h2 hne

theorem unsubscribe_idempotent_and_isolated_witness :
    (sessionOn 0 ∅).2 ((sessionOn 0 ∅).2 ({0, 1} : Finset Nat)) =
      (sessionOn 0 ∅).2 ({0, 1} : Finset Nat) ∧
    (1 ∈ (sessionOn 0 ∅).2 ({0, 1} : Finset Nat) ↔
      1 ∈ ({0, 1} : Finset Nat)) ∧
    (clientOnWildcard 0 []).2 ((clientOnWildcard 0 []).2 [0, 1]) =
      (clientOnWildcard 0 []).2 [0, 1] ∧
    ((clientOnWildcard 0 []).2 [0, 1]).count 1 =
      ([0, 1] : List Nat).count 1 ∧
    (clientOnWildcard 0 []).2 [1] = [1] ∧
    (clientOnTyped 0 []).2 ((clientOnTyped 0 []).2 [0, 1]) =
      (clientOnTyped 0 []).2 [0, 1] ∧
    ((clientOnTyped 0 []).2 [0, 1]).count 1 =
      ([0, 1] : List Nat).count 1 :=
  ⟨unsubscribe_idempotent_and_isolated.1 0 ∅ {0, 1},
   unsubscribe_idempotent_and_isolated.2.1 0 ∅ {0, 1} 1 (by decide),
   unsubscribe_idempotent_and_isolated.2.2.1 0 [] [0, 1] (by decide),
   unsubscribe_idempotent_and_isolated.2.2.2.1 0 [] [0, 1] 1 (by decide),
   unsubscribe_idempotent_and_isolated.2.2.2.2.1 0 [] [1] (by decide),
   unsubscribe_idempotent_and_isolated.2.2.2.2.2.1 0 [] [0, 1] (by decide),
   unsubscribe_idempotent_and_isolated.2.2.2.2.2.2 0 [] [0, 1] 1 (by decide)⟩

/-! ## C7 — models cache: single cold request, defensive copies -/

theorem lookup_append_of_forall_ne {l l2 : List (Nat × List Nat)} {r : Nat}
    (h : ∀ p ∈ l, p.1 ≠ r) :
    List.lookup r (l ++ l2) = List.lookup r l2 := by
  induction l with
  | nil => rfl
  | cons p rest ih =>
    obtain ⟨k, v⟩ := p
    have hk : k ≠ r := h (k, v) (List.mem_cons_self _ _)
    have hbf : (r == k) = false :=
      beq_eq_false_iff_ne.mpr (fun e => hk e.symm)
    simp only [List.cons_append, List.lookup, hbf]
    exact ih (fun q hq => h q (List.mem_cons_of_mem _ hq))

theorem lookup_map_set_ne (l : List (Nat × List Nat)) (r r2 : Nat)
    (v : List Nat) (hne : r ≠ r2) :
    List.lookup r (l.map (fun p => if p.1 = r2 then (r2, v) else p)) =
      List.lookup r l := by
  have hbf : (r == r2) = false := beq_eq_false_iff_ne.mpr hne
  induction l with
  | nil => rfl
  | cons p rest ih =>
    obtain ⟨k, w⟩ := p
    by_cases hk : k = r2
    · subst hk
      have hhead : (if (k, w).1 = k then (k, v) else (k, w)) = (k, v) :=
        if_pos rfl
      rw [List.map_cons, hhead]
      simp only [List.lookup, hbf]
      exact ih
    · have hhead : (if (k, w).1 = r2 then (r2, v) else (k, w)) = (k, w) :=
        if_neg hk
      rw [List.map_cons, hhead]
      simp only [List.lookup]
      cases hrk : (r == k) with
      | true => rfl
      | false => exact ih

/-- Claim C7: from a cold cache, two successive list_models calls (the
asyncio lock serializes concurrent callers into exactly such a sequence)
issue one outbound request in total — the first call issues it and every
call against a warm cache issues none and leaves the cache reference in
place — and each call returns a freshly allocated copy: the two returned
list objects and the cache object are pairwise distinct references all
holding the fetched models, and mutating either returned list in place
changes neither the cache contents nor the other returned list. -/
theorem list_models_single_request_and_copies
    (models : List Nat) (st : ModelsState)
    (hclient : st.hasClient = true) (hcold : st.cacheRef = none)
    (hwf : wfStore st = true) :
    (∀ (warmSt : ModelsState) (r : Nat) (ans : Except String (List Nat)),
      warmSt.hasClient = true → warmSt.cacheRef = some r →
      ∃ rc wst2, listModels ans warmSt = .ok (rc, wst2, 0) ∧
        wst2.cacheRef = some r) ∧
    ∃ r1 st1 r2 st2 c,
      listModels (.ok models) st = .ok (r1, st1, 1) ∧
      listModels (.ok models) st1 = .ok (r2, st2, 0) ∧
      st2.cacheRef = some c ∧ c ≠ r1 ∧ c ≠ r2 ∧ r1 ≠ r2 ∧
      heapGet st2 c = some models ∧
      heapGet st2 r1 = some models ∧
      heapGet st2 r2 = some models ∧
      (∀ v, heapGet (heapSet st2 r1 v) c = some models ∧
            heapGet (heapSet st2 r1 v) r2 = some models) ∧
      (∀ v, heapGet (heapSet st2 r2 v) c = some models ∧
            heapGet (heapSet st2 r2 v) r1 = some models) := by
  have hlt : ∀ p ∈ st.store, p.1 < st.nextRef := by
    intro p hp
    have := List.all_eq_true.mp hwf p hp
    exact of_decide_eq_true this
  have hfresh : ∀ m, st.nextRef ≤ m → ∀ p ∈ st.store, p.1 ≠ m := by
    intro m hm p hp
    have := hlt p hp
    omega
  constructor
  · intro warmSt r ans hwc hwr
    refine ⟨warmSt.nextRef,
      { warmSt with
          store := warmSt.store ++
            [(warmSt.nextRef, (heapGet warmSt r).getD [])],
          nextRef := warmSt.nextRef + 1 }, ?_, ?_⟩
    · unfold listModels allocList
      rw [hwc, hwr]
      rfl
    · show warmSt.cacheRef = some r
      exact hwr
  · have key1 : List.lookup st.nextRef
        (st.store ++ [(st.nextRef, models)]) = some models := by
      rw [lookup_append_of_forall_ne (hfresh st.nextRef (le_refl _))]
      simp [List.lookup]
    have hb1 : ((st.nextRef + 1 : Nat) == st.nextRef) = false :=
      beq_eq_false_iff_ne.mpr (by omega)
    have hb2 : ((st.nextRef + 2 : Nat) == st.nextRef) = false :=
      beq_eq_false_iff_ne.mpr (by omega)
    have hb3 : ((st.nextRef + 2 : Nat) == st.nextRef + 1) = false :=
      beq_eq_false_iff_ne.mpr (by omega)
    have key2 : List.lookup st.nextRef
        ((st.store ++ [(st.nextRef, models)]) ++
          [(st.nextRef + 1, models)]) = some models := by
      rw [List.append_assoc,
        lookup_append_of_forall_ne (hfresh st.nextRef (le_refl _))]
      simp [List.lookup]
    have key3 : List.lookup st.nextRef
        (((st.store ++ [(st.nextRef, models)]) ++
          [(st.nextRef + 1, models)]) ++ [(st.nextRef + 2, models)]) =
        some models := by
      rw [List.append_assoc, List.append_assoc,
        lookup_append_of_forall_ne (hfresh st.nextRef (le_refl _))]
      simp [List.lookup]
    have key4 : List.lookup (st.nextRef + 1)
        (((st.store ++ [(st.nextRef, models)]) ++
          [(st.nextRef + 1, models)]) ++ [(st.nextRef + 2, models)]) =
        some models := by
      rw [List.append_assoc, List.append_assoc,
        lookup_append_of_forall_ne (hfresh (st.nextRef + 1) (by omega))]
      simp [List.lookup, hb1]
    have key5 : List.lookup (st.nextRef + 2)
        (((st.store ++ [(st.nextRef, models)]) ++
          [(st.nextRef + 1, models)]) ++ [(st.nextRef + 2, models)]) =
        some models := by
      rw [List.append_assoc, List.append_assoc,
        lookup_append_of_forall_ne (hfresh (st.nextRef + 2) (by omega))]
      simp [List.lookup, hb2, hb3]
    refine ⟨st.nextRef + 1,
      { nextRef := st.nextRef + 2,
        store := (st.store ++ [(st.nextRef, models)]) ++
          [(st.nextRef + 1, models)],
        cacheRef := some st.nextRef,
        hasClient := st.hasClient },
      st.nextRef + 2,
      { nextRef := st.nextRef + 3,
        store := ((st.store ++ [(st.nextRef, models)]) ++
          [(st.nextRef + 1, models)]) ++ [(st.nextRef + 2, models)],
        cacheRef := some st.nextRef,
        hasClient := st.hasClient },
      st.nextRef, ?_, ?_, rfl, by omega, by omega, by omega,
      ?_, ?_, ?_, ?_, ?_⟩
    · unfold listModels allocList heapGet
      rw [hclient, hcold]
      simp only [Bool.not_true, Bool.false_eq_true, if_false]
      rw [key1]
      rfl
    · unfold listModels allocList heapGet
      simp only [hclient, Bool.not_true, Bool.false_eq_true, if_false]
      rw [key2]
      rfl
    · show List.lookup st.nextRef
        (((st.store ++ [(st.nextRef, models)]) ++
          [(st.nextRef + 1, models)]) ++ [(st.nextRef + 2, models)]) =
        some models
      exact key3
    · show List.lookup (st.nextRef + 1)
        (((st.store ++ [(st.nextRef, models)]) ++
          [(st.nextRef + 1, models)]) ++ [(st.nextRef + 2, models)]) =
        some models
      exact key4
    · show List.lookup (st.nextRef + 2)
        (((st.store ++ [(st.nextRef, models)]) ++
          [(st.nextRef + 1, models)]) ++ [(st.nextRef + 2, models)]) =
        some models
      exact key5
    · intro v
      constructor
      · show List.lookup st.nextRef
          ((((st.store ++ [(st.nextRef, models)]) ++
            [(st.nextRef + 1, models)]) ++ [(st.nextRef + 2, models)]).map
            (fun p => if p.1 = st.nextRef + 1 then (st.nextRef + 1, v)
              else p)) = some models
        rw [lookup_map_set_ne _ _ _ _ (by omega)]
        exact key3
      · show List.lookup (st.nextRef + 2)
          ((((st.store ++ [(st.nextRef, models)]) ++
            [(st.nextRef + 1, models)]) ++ [(st.nextRef + 2, models)]).map
            (fun p => if p.1 = st.nextRef + 1 then (st.nextRef + 1, v)
              else p)) = some models
        rw [lookup_map_set_ne _ _ _ _ (by omega)]
        exact key5
    · intro v
      constructor
      · show List.lookup st.nextRef
          ((((st.store ++ [(st.nextRef, models)]) ++
            [(st.nextRef + 1, models)]) ++ [(st.nextRef + 2, models)]).map
            (fun p => if p.1 = st.nextRef + 2 then (st.nextRef + 2, v)
              else p)) = some models
        rw [lookup_map_set_ne _ _ _ _ (by omega)]
        exact key3
      · show List.lookup (st.nextRef + 1)
          ((((st.store ++ [(st.nextRef, models)]) ++
            [(st.nextRef + 1, models)]) ++ [(st.nextRef + 2, models)]).map
            (fun p => if p.1 = st.nextRef + 2 then (st.nextRef + 2, v)
              else p)) = some models
        rw [lookup_map_set_ne _ _ _ _ (by omega)]
        exact key4

theorem list_models_single_request_and_copies_witness :
    coldModelsState.hasClient = true ∧ coldModelsState.cacheRef = none ∧
    wfStore coldModelsState = true ∧
    ∃ r1 st1 r2 st2 c,
      listModels (.ok [5]) coldModelsState = .ok (r1, st1, 1) ∧
      listModels (.ok [5]) st1 = .ok (r2, st2, 0) ∧
      st2.cacheRef = some c ∧ c ≠ r1 ∧ c ≠ r2 ∧ r1 ≠ r2 ∧
      heapGet st2 c = some [5] ∧
      heapGet st2 r1 = some [5] ∧
      heapGet st2 r2 = some [5] ∧
      (∀ v, heapGet (heapSet st2 r1 v) c = some [5] ∧
            heapGet (heapSet st2 r1 v) r2 = some [5]) ∧
      (∀ v, heapGet (heapSet st2 r2 v) c = some [5] ∧
            heapGet (heapSet st2 r2 v) r1 = some [5]) :=
  ⟨rfl, rfl, rfl,
    (list_models_single_request_and_copies [5] coldModelsState
      rfl rfl rfl).2⟩

/-! ## C9 — protocol version mismatch is fatal -/

/-- Claim C9: when the connect attempt gets through but the ping response
either omits the protocol version or reports one different from the SDK
expected version, start returns an error and the connection state ends at
error, never connected.  (Omission is caught by PingResponse.from_dict,
which raises before the explicit comparison.) -/
theorem version_mismatch_start_errors
    (spawnO connO : Except String Unit) (pingW : PingWire)
    (expected : Int) (st : ClientState)
    (hnc : ¬(st.state = "connected"))
    (hspawn : spawnO = .ok ()) (hconn : connO = .ok ())
    (hver : ¬(pingW.protocolVersion = some expected)) :
    ((clientStart spawnO connO pingW expected st).1).isOk = false ∧
    (clientStart spawnO connO pingW expected st).2.state = "error" := by
  obtain ⟨m, t, v⟩ := pingW
  subst hspawn
  subst hconn
  unfold clientStart
  rw [if_neg hnc]
  unfold verifyProtocolVersion pingResponseFromDict
  cases m <;> cases t <;> cases v <;>
    simp_all [ite_self, Except.isOk, Except.toBool]

theorem version_mismatch_start_errors_witness :
    ¬(sampleDisconnectedState.state = "connected") ∧
    ((clientStart (.ok ()) (.ok ())
        { message := some "pong", timestamp := some 0,
          protocolVersion := some 1 } 2 sampleDisconnectedState).1).isOk =
      false ∧
    (clientStart (.ok ()) (.ok ())
        { message := some "pong", timestamp := some 0,
          protocolVersion := some 1 } 2 sampleDisconnectedState).2.state =
      "error" := by
  refine ⟨by decide, ?_⟩
  exact version_mismatch_start_errors (.ok ()) (.ok ())
    { message := some "pong", timestamp := some 0, protocolVersion := some 1 }
    2 sampleDisconnectedState (by decide) rfl rfl (by decide)

/-! ## C3 — destroy does not remove the session from the registry -/

/-- Claim C3, counterexample: a session destroy that succeeds remotely
still leaves the client registry mapping its id: after the destroy effect
the lookup of the id is still some. -/
theorem destroy_does_not_remove_registry_entry :
    (sessionDestroy (.ok ()) sampleSession).isOk = true ∧
    ((registryAfterDestroy sampleRegistry "s1").lookup "s1").isSome =
      true :=
  ⟨rfl, rfl⟩

theorem lookup_registryAfterDestroy (reg : SessionRegistry) (sid : String) :
    ((registryAfterDestroy reg sid).lookup sid).isSome =
      (List.lookup sid reg).isSome := by
  induction reg with
  | nil => rfl
  | cons p rest ih =>
    obtain ⟨k, v⟩ := p
    simp only [registryAfterDestroy, List.map_cons] at ih ⊢
    by_cases hk : k = sid
    · subst hk
      rw [if_pos rfl]
      simp [List.lookup]
    · have hks : sid ≠ k := fun h => hk h.symm
      have hbf : (sid == k) = false := beq_eq_false_iff_ne.mpr hks
      rw [if_neg hk]
      simp only [List.lookup, hbf]
      exact ih

theorem lookup_filter_ne_none (reg : SessionRegistry) (sid : String) :
    List.lookup sid (reg.filter (fun p => !(p.1 = sid))) = none := by
  induction reg with
  | nil => rfl
  | cons p rest ih =>
    obtain ⟨k, v⟩ := p
    by_cases hk : k = sid
    · simp [List.filter, hk, ih]
    · have hks : sid ≠ k := fun h => hk h.symm
      have hbf : (sid == k) = false := beq_eq_false_iff_ne.mpr hks
      simp [List.filter, hk, List.lookup, hbf, ih]

/-- Claim C3 (amended): session destroy clears the event, tool and
permission handler tables of the session object, but destroy never
removes the id from the client registry — the registry entry survives
with exactly the presence it had before; only delete_session (and the
stop paths) removes the id from the registry. -/
theorem destroy_keeps_registry_delete_removes :
    (∀ s : CopilotSession,
      (destroyedSession s).eventHandlers = ∅ ∧
      (destroyedSession s).toolHandlers = [] ∧
      (destroyedSession s).permissionHandler = none) ∧
    (∀ (reg : SessionRegistry) (sid : String),
      ((registryAfterDestroy reg sid).lookup sid).isSome =
        (List.lookup sid reg).isSome) ∧
    (∀ (resp : DeleteSessionResponse) (reg : SessionRegistry)
        (sid : String) (reg2 : SessionRegistry),
      deleteSession resp reg sid = .ok reg2 →
      List.lookup sid reg2 = none) := by
  refine ⟨fun s => ⟨rfl, rfl, rfl⟩, lookup_registryAfterDestroy, ?_⟩
  intro resp reg sid reg2 h
  unfold deleteSession at h
  split at h
  · cases h
  · cases h
    exact lookup_filter_ne_none reg sid

theorem destroy_keeps_registry_delete_removes_witness :
    deleteSession { success := some true, error := none }
      sampleRegistry "s1" = .ok [] ∧
    List.lookup "s1" ([] : SessionRegistry) = none :=
  ⟨rfl, destroy_keeps_registry_delete_removes.2.2
    { success := some true, error := none } sampleRegistry "s1" [] rfl⟩

/-! ## C4 — stop aggregates cleanup errors and always releases -/

theorem length_filterMap_eq_length_filter {α β : Type} (g : α → Option β)
    (l : List α) :
    (l.filterMap g).length = (l.filter (fun x => (g x).isSome)).length := by
  induction l with
  | nil => rfl
  | cons x xs ih =>
    cases hx : g x <;> simp [List.filterMap_cons, List.filter, hx, ih]

/-- Claim C4: stop never raises — it is a total transformation returning
the list of per-session destruction failures: the list has one entry per
failing session (so one failing destroy blocks nothing); regardless of
failures, the registry is emptied, the transport closed, the models cache
cleared, the owned process terminated and the state left disconnected;
and a second stop on the resulting state (in particular on a client that
was never started) returns the empty error list. -/
theorem stop_collects_errors_and_releases
    (destroyO destroyO2 : String → Except String Unit) (st : ClientState) :
    (clientStop destroyO st).1.length =
      (st.sessions.filter (fun p => !(destroyO p.1).isOk)).length ∧
    (clientStop destroyO st).2.sessions = [] ∧
    (clientStop destroyO st).2.hasClient = false ∧
    (clientStop destroyO st).2.modelsCache = none ∧
    (clientStop destroyO st).2.state = "disconnected" ∧
    ((clientStop destroyO st).2.hasProcess =
      if st.hasProcess && !st.isExternalServer then false
      else st.hasProcess) ∧
    (clientStop destroyO2 (clientStop destroyO st).2).1 = [] := by
  refine ⟨?_, rfl, rfl, rfl, rfl, rfl, rfl⟩
  show (List.filterMap _ st.sessions).length = _
  rw [length_filterMap_eq_length_filter]
  congr 1
  apply List.filter_congr
  intro p _
  cases hp : destroyO p.1 <;> simp [hp, Except.isOk, Except.toBool]

theorem unsupported_tool_failure_witness :
    handleToolCallRequest sampleRegistry
      { sessionId := some "s1", toolCallId := some "c1",
        toolName := some "mytool", arguments := none } =
      .ok (buildUnsupportedToolResult "mytool") ∧
    (buildUnsupportedToolResult "mytool").resultType = some "failure" ∧
    strContains
      (((buildUnsupportedToolResult "mytool").textResultForLlm).getD "")
      "mytool" = true :=
  unsupported_tool_failure sampleRegistry
    { sessionId := some "s1", toolCallId := some "c1",
      toolName := some "mytool", arguments := none }
    "s1" "c1" "mytool" sampleSession rfl rfl rfl rfl rfl rfl rfl rfl

/-! ## C5 — endpoint parsing: helper lemmas -/

theorem ne_of_digit_of_not_digit {c x : Char} (hc : c.isDigit = true)
    (hx : x.isDigit = false) : c ≠ x := by
  intro he
  rw [he, hx] at hc
  cases hc

theorem isPySpace_false_of_digit {c : Char} (hc : c.isDigit = true) :
    isPySpace c = false := by
  unfold isPySpace
  have h1 := ne_of_digit_of_not_digit hc (show (' ').isDigit = false by decide)
  have h2 := ne_of_digit_of_not_digit hc (show ('\t').isDigit = false by decide)
  have h3 := ne_of_digit_of_not_digit hc (show ('\n').isDigit = false by decide)
  have h4 := ne_of_digit_of_not_digit hc (show ('\r').isDigit = false by decide)
  have h5 := ne_of_digit_of_not_digit hc
    (show ('\x0b').isDigit = false by decide)
  have h6 := ne_of_digit_of_not_digit hc
    (show ('\x0c').isDigit = false by decide)
  simp [h1, h2, h3, h4, h5, h6]

theorem dropWhile_all_false {p : Char → Bool} {l : List Char}
    (h : ∀ x ∈ l, p x = false) : l.dropWhile p = l := by
  cases l with
  | nil => rfl
  | cons x xs =>
    simp [List.dropWhile, h x (List.mem_cons_self _ _)]

theorem stripWs_noop {cs : List Char} (h : ∀ c ∈ cs, isPySpace c = false) :
    stripWs cs = cs := by
  unfold stripWs dropLeadingWs
  rw [dropWhile_all_false h]
  rw [dropWhile_all_false (fun x hx => h x (List.mem_reverse.mp hx))]
  exact List.reverse_reverse cs

theorem goDigits_cons_digit (acc : Nat) {c : Char} (rest : List Char)
    (hc : c.isDigit = true) :
    goDigits acc (c :: rest) = goDigits (acc * 10 + digitVal c) rest := by
  rw [goDigits.eq_def]
  dsimp only
  rw [if_pos hc]

theorem goDigits_all_digits {cs : List Char}
    (h : ∀ c ∈ cs, c.isDigit = true) (acc : Nat) :
    goDigits acc cs =
      some (cs.foldl (fun a c => a * 10 + digitVal c) acc) := by
  induction cs generalizing acc with
  | nil => rfl
  | cons c rest ih =>
    have hc : c.isDigit = true := h c (List.mem_cons_self _ _)
    rw [goDigits_cons_digit acc rest hc, List.foldl_cons]
    exact ih (fun x hx => h x (List.mem_cons_of_mem _ hx)) _

theorem parseDigitsUnd_all_digits {cs : List Char} (hne : cs ≠ [])
    (h : ∀ c ∈ cs, c.isDigit = true) :
    parseDigitsUnd cs = some (digitsVal cs) := by
  cases cs with
  | nil => exact absurd rfl hne
  | cons c rest =>
    have hc : c.isDigit = true := h c (List.mem_cons_self _ _)
    show (if c.isDigit then goDigits (digitVal c) rest else none) =
      some (digitsVal (c :: rest))
    rw [if_pos hc,
      goDigits_all_digits (fun x hx => h x (List.mem_cons_of_mem _ hx))]
    unfold digitsVal
    rw [List.foldl_cons]
    norm_num

theorem pyParseInt_digits {cs : List Char} (hne : cs ≠ [])
    (h : ∀ c ∈ cs, c.isDigit = true) :
    pyParseInt (String.mk cs) = some ((digitsVal cs : Nat) : Int) := by
  unfold pyParseInt
  show (match stripWs cs with
    | [] => none
    | c :: rest =>
      if c = '-' then (parseDigitsUnd rest).map (fun n => -(n : Int))
      else if c = '+' then (parseDigitsUnd rest).map (fun n => (n : Int))
      else (parseDigitsUnd (c :: rest)).map (fun n => (n : Int))) =
    some ((digitsVal cs : Nat) : Int)
  rw [stripWs_noop (fun c hc => isPySpace_false_of_digit (h c hc))]
  cases cs with
  | nil => exact absurd rfl hne
  | cons c rest =>
    have hc : c.isDigit = true := h c (List.mem_cons_self _ _)
    have hm : c ≠ '-' :=
      ne_of_digit_of_not_digit hc (show ('-').isDigit = false by decide)
    have hp : c ≠ '+' :=
      ne_of_digit_of_not_digit hc (show ('+').isDigit = false by decide)
    simp only [if_neg hm, if_neg hp]
    rw [parseDigitsUnd_all_digits (List.cons_ne_nil _ _) h]
    rfl

theorem isdigitChars_true {cs : List Char} (hne : cs ≠ [])
    (h : ∀ c ∈ cs, c.isDigit = true) : isdigitChars cs = true := by
  unfold isdigitChars
  have h1 : cs.isEmpty = false := by
    cases cs
    · exact absurd rfl hne
    · rfl
  rw [h1, List.all_eq_true.mpr h]
  rfl

theorem isdigitChars_false_of_mem {cs : List Char} {x : Char}
    (hmem : x ∈ cs) (hx : x.isDigit = false) : isdigitChars cs = false := by
  unfold isdigitChars
  cases hall : cs.all Char.isDigit with
  | false => simp
  | true =>
    have := List.all_eq_true.mp hall x hmem
    rw [this] at hx
    cases hx

theorem splitOnChar_cons (sep c : Char) (rest : List Char) :
    splitOnChar sep (c :: rest) =
      if c = sep then [] :: splitOnChar sep rest
      else
        match splitOnChar sep rest with
        | [] => [[c]]
        | piece :: pieces => (c :: piece) :: pieces := rfl

theorem splitOnChar_no_sep {sep : Char} {cs : List Char}
    (h : ∀ c ∈ cs, c ≠ sep) : splitOnChar sep cs = [cs] := by
  induction cs with
  | nil => rfl
  | cons c rest ih =>
    have hc : c ≠ sep := h c (List.mem_cons_self _ _)
    rw [splitOnChar_cons, if_neg hc,
      ih (fun x hx => h x (List.mem_cons_of_mem _ hx))]

theorem splitOnChar_append {sep : Char} {a b : List Char}
    (ha : ∀ c ∈ a, c ≠ sep) (hb : ∀ c ∈ b, c ≠ sep) :
    splitOnChar sep (a ++ sep :: b) = [a, b] := by
  induction a with
  | nil =>
    rw [List.nil_append, splitOnChar_cons, if_pos rfl,
      splitOnChar_no_sep hb]
  | cons c a2 ih =>
    have hc : c ≠ sep := ha c (List.mem_cons_self _ _)
    rw [List.cons_append, splitOnChar_cons, if_neg hc,
      ih (fun x hx => ha x (List.mem_cons_of_mem _ hx))]

theorem splitOnChar_ne_nil (sep : Char) (cs : List Char) :
    splitOnChar sep cs ≠ [] := by
  cases cs with
  | nil => simp [splitOnChar]
  | cons c rest =>
    rw [splitOnChar_cons]
    by_cases hc : c = sep
    · simp [hc]
    · rw [if_neg hc]
      cases hr : splitOnChar sep rest <;> simp

theorem splitOnChar_length (sep : Char) (cs : List Char) :
    (splitOnChar sep cs).length = cs.count sep + 1 := by
  induction cs with
  | nil => rfl
  | cons c rest ih =>
    by_cases hc : c = sep
    · subst hc
      rw [splitOnChar_cons, if_pos rfl]
      simp only [List.length_cons, ih, List.count_cons_self]
    · have hbf : (c == sep) = false := beq_eq_false_iff_ne.mpr hc
      rw [splitOnChar_cons, if_neg hc]
      cases hr : splitOnChar sep rest with
      | nil => exact absurd hr (splitOnChar_ne_nil sep rest)
      | cons p ps =>
        rw [hr] at ih
        simp only [List.length_cons] at ih ⊢
        rw [List.count_cons, hbf]
        simpa using ih

theorem startsWith_http_shape {a b : List Char} (hcolon : ∀ c ∈ a, c ≠ ':')
    (hsw : startsWithChars ['h', 't', 't', 'p', ':', '/', '/']
      (a ++ ':' :: b) = true) :
    a = ['h', 't', 't', 'p'] ∧ startsWithChars ['/', '/'] b = true := by
  rcases a with _ | ⟨c0, _ | ⟨c1, _ | ⟨c2, _ | ⟨c3, _ | ⟨c4, arest⟩⟩⟩⟩⟩
  · simp [startsWithChars] at hsw
  · simp [startsWithChars] at hsw
  · simp [startsWithChars] at hsw
  · simp [startsWithChars] at hsw
  · simp only [List.cons_append, List.nil_append, startsWithChars,
      Bool.and_eq_true, decide_eq_true_eq] at hsw
    obtain ⟨e0, e1, e2, e3, hb⟩ := hsw
    subst e0
    subst e1
    subst e2
    subst e3
    exact ⟨rfl, hb.2⟩
  · simp only [List.cons_append, startsWithChars, Bool.and_eq_true,
      decide_eq_true_eq] at hsw
    obtain ⟨e0, e1, e2, e3, e4, hb⟩ := hsw
    exact absurd e4.symm (hcolon c4 (by simp))

theorem startsWith_https_shape {a b : List Char} (hcolon : ∀ c ∈ a, c ≠ ':')
    (hsw : startsWithChars ['h', 't', 't', 'p', 's', ':', '/', '/']
      (a ++ ':' :: b) = true) :
    a = ['h', 't', 't', 'p', 's'] ∧ startsWithChars ['/', '/'] b = true := by
  rcases a with _ | ⟨c0, _ | ⟨c1, _ | ⟨c2, _ | ⟨c3, _ | ⟨c4, _ | ⟨c5, arest⟩⟩⟩⟩⟩⟩
  · simp [startsWithChars] at hsw
  · simp [startsWithChars] at hsw
  · simp [startsWithChars] at hsw
  · simp [startsWithChars] at hsw
  · simp [startsWithChars] at hsw
  · simp only [List.cons_append, List.nil_append, startsWithChars,
      Bool.and_eq_true, decide_eq_true_eq] at hsw
    obtain ⟨e0, e1, e2, e3, e4, hb⟩ := hsw
    subst e0
    subst e1
    subst e2
    subst e3
    subst e4
    exact ⟨rfl, hb.2⟩
  · simp only [List.cons_append, startsWithChars, Bool.and_eq_true,
      decide_eq_true_eq] at hsw
    obtain ⟨e0, e1, e2, e3, e4, e5, hb⟩ := hsw
    exact absurd e5.symm (hcolon c5 (by simp))

theorem stripScheme_noop_of_head {a b : List Char}
    (hcolon : ∀ c ∈ a, c ≠ ':')
    (hb : ∀ hd tl, b = hd :: tl → hd ≠ '/') :
    stripScheme (a ++ ':' :: b) = a ++ ':' :: b := by
  unfold stripScheme
  have h1 : ¬(startsWithChars "http://".data (a ++ ':' :: b) = true) := by
    intro hsw
    rw [show ("http://" : String).data =
      ['h', 't', 't', 'p', ':', '/', '/'] from rfl] at hsw
    obtain ⟨ha, hbb⟩ := startsWith_http_shape hcolon hsw
    cases b with
    | nil => simp [startsWithChars] at hbb
    | cons hd tl =>
      simp only [startsWithChars, Bool.and_eq_true, decide_eq_true_eq] at hbb
      exact hb hd tl rfl hbb.1.symm
  have h2 : ¬(startsWithChars "https://".data (a ++ ':' :: b) = true) := by
    intro hsw
    rw [show ("https://" : String).data =
      ['h', 't', 't', 'p', 's', ':', '/', '/'] from rfl] at hsw
    obtain ⟨ha, hbb⟩ := startsWith_https_shape hcolon hsw
    cases b with
    | nil => simp [startsWithChars] at hbb
    | cons hd tl =>
      simp only [startsWithChars, Bool.and_eq_true, decide_eq_true_eq] at hbb
      exact hb hd tl rfl hbb.1.symm
  rw [if_neg h1, if_neg h2]

theorem stripScheme_noop_of_ne {a b : List Char}
    (hcolon : ∀ c ∈ a, c ≠ ':')
    (hna : a ≠ ['h', 't', 't', 'p']) (hna2 : a ≠ ['h', 't', 't', 'p', 's']) :
    stripScheme (a ++ ':' :: b) = a ++ ':' :: b := by
  unfold stripScheme
  have h1 : ¬(startsWithChars "http://".data (a ++ ':' :: b) = true) := by
    intro hsw
    rw [show ("http://" : String).data =
      ['h', 't', 't', 'p', ':', '/', '/'] from rfl] at hsw
    exact hna (startsWith_http_shape hcolon hsw).1
  have h2 : ¬(startsWithChars "https://".data (a ++ ':' :: b) = true) := by
    intro hsw
    rw [show ("https://" : String).data =
      ['h', 't', 't', 'p', 's', ':', '/', '/'] from rfl] at hsw
    exact hna2 (startsWith_https_shape hcolon hsw).1
  rw [if_neg h1, if_neg h2]

theorem stripScheme_noop_digit_head {d : Char} {rest : List Char}
    (hd : d.isDigit = true) : stripScheme (d :: rest) = d :: rest := by
  have hne : ¬('h' = d) := by
    intro e
    rw [← e] at hd
    exact absurd hd (by decide)
  unfold stripScheme
  have h1 : ¬(startsWithChars "http://".data (d :: rest) = true) := by
    intro hsw
    rw [show ("http://" : String).data =
      ['h', 't', 't', 'p', ':', '/', '/'] from rfl] at hsw
    simp only [startsWithChars, Bool.and_eq_true, decide_eq_true_eq] at hsw
    exact hne hsw.1
  have h2 : ¬(startsWithChars "https://".data (d :: rest) = true) := by
    intro hsw
    rw [show ("https://" : String).data =
      ['h', 't', 't', 'p', 's', ':', '/', '/'] from rfl] at hsw
    simp only [startsWithChars, Bool.and_eq_true, decide_eq_true_eq] at hsw
    exact hne hsw.1
  rw [if_neg h1, if_neg h2]

theorem stripScheme_http (rest : List Char) :
    stripScheme ("http://".data ++ rest) = rest := by
  unfold stripScheme
  rw [if_pos (startsWithChars_append_self _ _),
    show (7 : Nat) = ("http://".data).length from rfl, List.drop_left]

theorem stripScheme_https (rest : List Char) :
    stripScheme ("https://".data ++ rest) = rest := by
  unfold stripScheme
  have h1 : startsWithChars "http://".data ("https://".data ++ rest) =
      false := by
    rfl
  have h1n : ¬(startsWithChars "http://".data ("https://".data ++ rest) =
      true) := by
    rw [h1]
    simp
  rw [if_neg h1n, if_pos (startsWithChars_append_self _ _),
    show (8 : Nat) = ("https://".data).length from rfl, List.drop_left]

theorem parseCliUrl_of_stripped_hostport {url host : String} {ds : List Char}
    (hstrip : stripScheme url.data = host.data ++ ':' :: ds)
    (hcolon : ∀ c ∈ host.data, c ≠ ':')
    (hne : ds ≠ []) (hall : ∀ c ∈ ds, c.isDigit = true)
    (hlo : 1 ≤ digitsVal ds) (hhi : digitsVal ds ≤ 65535) :
    parseCliUrl url = .ok ((if host = "" then "localhost" else host),
      ((digitsVal ds : Nat) : Int)) := by
  have hmem : (':' : Char) ∈ host.data ++ ':' :: ds :=
    List.mem_append_right _ (List.mem_cons_self _ _)
  have hdig : isdigitChars (host.data ++ ':' :: ds) = false :=
    isdigitChars_false_of_mem hmem (by decide)
  have hdscolon : ∀ c ∈ ds, c ≠ ':' := fun c hc =>
    ne_of_digit_of_not_digit (hall c hc) (by decide)
  have hrange : ((decide ((digitsVal ds : Int) ≤ 0)) ||
      (decide ((digitsVal ds : Int) > 65535))) = false := by
    simp only [Bool.or_eq_false_iff, decide_eq_false_iff_not]
    constructor <;> omega
  unfold parseCliUrl
  dsimp only
  rw [hstrip, hdig]
  simp only [Bool.false_eq_true, if_false]
  rw [splitOnChar_append hcolon hdscolon]
  dsimp only
  rw [pyParseInt_digits hne hall]
  dsimp only
  rw [hrange]
  simp only [Bool.false_eq_true, if_false]
  by_cases hh : host = ""
  · subst hh
    rfl
  · have hdne : host.data ≠ [] := by
      intro e
      apply hh
      cases host
      simp_all
    have hemp : host.data.isEmpty = false := by
      cases hdd : host.data with
      | nil => exact absurd hdd hdne
      | cons x xs => rfl
    rw [hemp]
    simp only [Bool.false_eq_true, if_false]
    rw [if_neg hh]

theorem parseCliUrl_err_of_stripped {url host port : String}
    (hstrip : stripScheme url.data = host.data ++ ':' :: port.data)
    (hcolon : ∀ c ∈ host.data, c ≠ ':')
    (hpcolon : ∀ c ∈ port.data, c ≠ ':')
    (hbad : pyParseInt port = none ∨
      ∃ v, pyParseInt port = some v ∧ (v ≤ 0 ∨ v > 65535)) :
    ∃ e, parseCliUrl url = .error e := by
  have hmem : (':' : Char) ∈ host.data ++ ':' :: port.data :=
    List.mem_append_right _ (List.mem_cons_self _ _)
  have hdig : isdigitChars (host.data ++ ':' :: port.data) = false :=
    isdigitChars_false_of_mem hmem (by decide)
  unfold parseCliUrl
  dsimp only
  rw [hstrip, hdig]
  simp only [Bool.false_eq_true, if_false]
  rw [splitOnChar_append hcolon hpcolon]
  dsimp only
  rw [show String.mk port.data = port from rfl]
  rcases hbad with hnone | ⟨v, hv, hr⟩
  · rw [hnone]
    exact ⟨_, rfl⟩
  · rw [hv]
    have hc : ((decide (v ≤ 0)) || (decide (v > 65535))) = true := by
      rcases hr with h | h <;> simp [h]
    dsimp only
    rw [hc]
    exact ⟨_, rfl⟩

theorem parseCliUrl_digits_ok {ds : List Char}
    (hne : ds ≠ []) (hall : ∀ c ∈ ds, c.isDigit = true)
    (hlo : 1 ≤ digitsVal ds) (hhi : digitsVal ds ≤ 65535) :
    parseCliUrl (String.mk ds) =
      .ok ("localhost", ((digitsVal ds : Nat) : Int)) := by
  have hrange : ((decide ((digitsVal ds : Int) ≤ 0)) ||
      (decide ((digitsVal ds : Int) > 65535))) = false := by
    simp only [Bool.or_eq_false_iff, decide_eq_false_iff_not]
    constructor <;> omega
  unfold parseCliUrl
  dsimp only
  cases ds with
  | nil => exact absurd rfl hne
  | cons d rest =>
    have hstrip : stripScheme (String.mk (d :: rest)).data = d :: rest :=
      stripScheme_noop_digit_head (hall d (List.mem_cons_self _ _))
    rw [hstrip, isdigitChars_true (List.cons_ne_nil _ _) hall]
    simp only [if_true]
    rw [pyParseInt_digits (List.cons_ne_nil _ _) hall]
    dsimp only
    rw [hrange]
    rfl

theorem parseCliUrl_digits_err {ds : List Char}
    (hne : ds ≠ []) (hall : ∀ c ∈ ds, c.isDigit = true)
    (hr : digitsVal ds = 0 ∨ digitsVal ds > 65535) :
    ∃ e, parseCliUrl (String.mk ds) = .error e := by
  have hrange : ((decide ((digitsVal ds : Int) ≤ 0)) ||
      (decide ((digitsVal ds : Int) > 65535))) = true := by
    rcases hr with h | h
    · simp only [Bool.or_eq_true, decide_eq_true_eq]
      left
      omega
    · simp only [Bool.or_eq_true, decide_eq_true_eq]
      right
      omega
  unfold parseCliUrl
  dsimp only
  cases ds with
  | nil => exact absurd rfl hne
  | cons d rest =>
    have hstrip : stripScheme (String.mk (d :: rest)).data = d :: rest :=
      stripScheme_noop_digit_head (hall d (List.mem_cons_self _ _))
    rw [hstrip, isdigitChars_true (List.cons_ne_nil _ _) hall]
    simp only [if_true]
    rw [pyParseInt_digits (List.cons_ne_nil _ _) hall]
    dsimp only
    rw [hrange]
    exact ⟨_, rfl⟩

theorem parseCliUrl_malformed {url : String}
    (hdig : isdigitChars (stripScheme url.data) = false)
    (hcount : (stripScheme url.data).count ':' ≠ 1) :
    ∃ e, parseCliUrl url = .error e := by
  have hlen : (splitOnChar ':' (stripScheme url.data)).length ≠ 2 := by
    rw [splitOnChar_length]
    omega
  unfold parseCliUrl
  dsimp only
  rw [hdig]
  simp only [Bool.false_eq_true, if_false]
  rcases hsp : splitOnChar ':' (stripScheme url.data) with
    _ | ⟨x, _ | ⟨y, _ | ⟨z, rest⟩⟩⟩
  · exact ⟨_, rfl⟩
  · exact ⟨_, rfl⟩
  · rw [hsp] at hlen
    simp at hlen
  · exact ⟨_, rfl⟩

theorem string_eq_of_data_eq {s : String} {l : List Char}
    (h : s.data = l) : s = String.mk l := by
  cases s
  simp_all

/-- Claim C5: writing a port as its digit string ds, parsing the bare
form yields (localhost, port); the host:port form yields the same pair
with the host (or localhost when the host is empty); prefixing the
accepted schemes http:// or https:// yields exactly the same pair as the
bare host:port form; a port value of 0 or above 65535 — bare or with a
host — raises ValueError, as does a non-numeric port (one Python int()
rejects) and any string that, after scheme stripping, is neither a digit
string nor contains exactly one colon.  Hosts are colon-free (a colon in
the host is the malformed case) and, for the failing-port forms, not
themselves the literal scheme names. -/
theorem parse_cli_url_forms :
    (∀ ds : List Char, ds ≠ [] → (∀ c ∈ ds, c.isDigit = true) →
      1 ≤ digitsVal ds → digitsVal ds ≤ 65535 →
      parseCliUrl (String.mk ds) =
        .ok ("localhost", ((digitsVal ds : Nat) : Int))) ∧
    (∀ (host : String) (ds : List Char), (∀ c ∈ host.data, c ≠ ':') →
      ds ≠ [] → (∀ c ∈ ds, c.isDigit = true) →
      1 ≤ digitsVal ds → digitsVal ds ≤ 65535 →
      parseCliUrl (host ++ ":" ++ String.mk ds) =
        .ok ((if host = "" then "localhost" else host),
          ((digitsVal ds : Nat) : Int))) ∧
    (∀ (host : String) (ds : List Char), (∀ c ∈ host.data, c ≠ ':') →
      ds ≠ [] → (∀ c ∈ ds, c.isDigit = true) →
      1 ≤ digitsVal ds → digitsVal ds ≤ 65535 →
      parseCliUrl ("http://" ++ host ++ ":" ++ String.mk ds) =
        .ok ((if host = "" then "localhost" else host),
          ((digitsVal ds : Nat) : Int))) ∧
    (∀ (host : String) (ds : List Char), (∀ c ∈ host.data, c ≠ ':') →
      ds ≠ [] → (∀ c ∈ ds, c.isDigit = true) →
      1 ≤ digitsVal ds → digitsVal ds ≤ 65535 →
      parseCliUrl ("https://" ++ host ++ ":" ++ String.mk ds) =
        .ok ((if host = "" then "localhost" else host),
          ((digitsVal ds : Nat) : Int))) ∧
    (∀ ds : List Char, ds ≠ [] → (∀ c ∈ ds, c.isDigit = true) →
      (digitsVal ds = 0 ∨ digitsVal ds > 65535) →
      ∃ e, parseCliUrl (String.mk ds) = .error e) ∧
    (∀ (host port : String), (∀ c ∈ host.data, c ≠ ':') →
      (∀ c ∈ port.data, c ≠ ':') → host ≠ "http" → host ≠ "https" →
      pyParseInt port = none →
      ∃ e, parseCliUrl (host ++ ":" ++ port) = .error e) ∧
    (∀ (host port : String) (v : Int), (∀ c ∈ host.data, c ≠ ':') →
      (∀ c ∈ port.data, c ≠ ':') → host ≠ "http" → host ≠ "https" →
      pyParseInt port = some v → (v ≤ 0 ∨ v > 65535) →
      ∃ e, parseCliUrl (host ++ ":" ++ port) = .error e) ∧
    (∀ url : String, isdigitChars (stripScheme url.data) = false →
      (stripScheme url.data).count ':' ≠ 1 →
      ∃ e, parseCliUrl url = .error e) := by
  have hostport_data : ∀ (host tail : String),
      (host ++ ":" ++ tail).data = host.data ++ ':' :: tail.data := by
    intro host tail
    rw [String.data_append, String.data_append, List.append_assoc]
    rfl
  have slash_free : ∀ (ds : List Char), (∀ c ∈ ds, c.isDigit = true) →
      ∀ hd tl, ds = hd :: tl → hd ≠ '/' := by
    intro ds hall hd tl he
    refine ne_of_digit_of_not_digit (hall hd ?_) (by decide)
    rw [he]
    exact List.mem_cons_self _ _
  refine ⟨?_, ?_, ?_, ?_, ?_, ?_, ?_, ?_⟩
  · intro ds hne hall hlo hhi
    exact parseCliUrl_digits_ok hne hall hlo hhi
  · intro host ds hcolon hne hall hlo hhi
    refine parseCliUrl_of_stripped_hostport ?_ hcolon hne hall hlo hhi
    rw [hostport_data host (String.mk ds)]
    exact stripScheme_noop_of_head hcolon (slash_free ds hall)
  · intro host ds hcolon hne hall hlo hhi
    refine parseCliUrl_of_stripped_hostport ?_ hcolon hne hall hlo hhi
    have hd : ("http://" ++ host ++ ":" ++ String.mk ds).data =
        "http://".data ++ (host.data ++ ':' :: ds) := by
      rw [String.data_append, String.data_append, String.data_append,
        List.append_assoc, List.append_assoc]
      rfl
    rw [hd]
    exact stripScheme_http _
  · intro host ds hcolon hne hall hlo hhi
    refine parseCliUrl_of_stripped_hostport ?_ hcolon hne hall hlo hhi
    have hd : ("https://" ++ host ++ ":" ++ String.mk ds).data =
        "https://".data ++ (host.data ++ ':' :: ds) := by
      rw [String.data_append, String.data_append, String.data_append,
        List.append_assoc, List.append_assoc]
      rfl
    rw [hd]
    exact stripScheme_https _
  · intro ds hne hall hr
    exact parseCliUrl_digits_err hne hall hr
  · intro host port hcolon hpcolon hh1 hh2 hnone
    refine parseCliUrl_err_of_stripped ?_ hcolon hpcolon (Or.inl hnone)
    rw [hostport_data host port]
    exact stripScheme_noop_of_ne hcolon
      (fun e => hh1 (string_eq_of_data_eq e))
      (fun e => hh2 (string_eq_of_data_eq e))
  · intro host port v hcolon hpcolon hh1 hh2 hv hr
    refine parseCliUrl_err_of_stripped ?_ hcolon hpcolon
      (Or.inr ⟨v, hv, hr⟩)
    rw [hostport_data host port]
    exact stripScheme_noop_of_ne hcolon
      (fun e => hh1 (string_eq_of_data_eq e))
      (fun e => hh2 (string_eq_of_data_eq e))
  · intro url hdig hcount
    exact parseCliUrl_malformed hdig hcount

theorem parse_cli_url_forms_witness :
    parseCliUrl (String.mk ['8', '0']) =
      .ok ("localhost", ((digitsVal ['8', '0'] : Nat) : Int)) ∧
    parseCliUrl ("myhost" ++ ":" ++ String.mk ['9', '0', '0', '0']) =
      .ok ((if ("myhost" : String) = "" then "localhost" else "myhost"),
        ((digitsVal ['9', '0', '0', '0'] : Nat) : Int)) ∧
    parseCliUrl ("http://" ++ "myhost" ++ ":" ++
        String.mk ['9', '0', '0', '0']) =
      .ok ((if ("myhost" : String) = "" then "localhost" else "myhost"),
        ((digitsVal ['9', '0', '0', '0'] : Nat) : Int)) ∧
    parseCliUrl ("https://" ++ "myhost" ++ ":" ++
        String.mk ['9', '0', '0', '0']) =
      .ok ((if ("myhost" : String) = "" then "localhost" else "myhost"),
        ((digitsVal ['9', '0', '0', '0'] : Nat) : Int)) ∧
    (∃ e, parseCliUrl (String.mk ['0']) = .error e) ∧
    (∃ e, parseCliUrl ("h" ++ ":" ++ "abc") = .error e) ∧
    (∃ e, parseCliUrl ("h" ++ ":" ++ "70000") = .error e) ∧
    (∃ e, parseCliUrl "a:b:c" = .error e) :=
  ⟨parse_cli_url_forms.1 ['8', '0'] (by decide) (by decide) (by decide)
      (by decide),
   parse_cli_url_forms.2.1 "myhost" ['9', '0', '0', '0'] (by decide)
      (by decide) (by decide) (by decide) (by decide),
   parse_cli_url_forms.2.2.1 "myhost" ['9', '0', '0', '0'] (by decide)
      (by decide) (by decide) (by decide) (by decide),
   parse_cli_url_forms.2.2.2.1 "myhost" ['9', '0', '0', '0'] (by decide)
      (by decide) (by decide) (by decide) (by decide),
   parse_cli_url_forms.2.2.2.2.1 ['0'] (by decide) (by decide)
      (Or.inl (by decide)),
   parse_cli_url_forms.2.2.2.2.2.1 "h" "abc" (by decide) (by decide)
      (by decide) (by decide) (by decide),
   parse_cli_url_forms.2.2.2.2.2.2.1 "h" "70000" 70000 (by decide)
      (by decide) (by decide) (by decide) (by decide)
      (Or.inr (by decide)),
   parse_cli_url_forms.2.2.2.2.2.2.2 "a:b:c" (by decide) (by decide)⟩

end CopilotSDK
